import Mathlib

/-!
Verification of `deeplab3plus_tf_syncbn` (TensorFlow DeepLab v3+ with a
synchronized batch norm).  The two Python source files are embedded
shallowly:

* `src/preprocessing.py` — mean subtraction/addition, random rescale,
  random crop-or-pad, random left-right flip.
* `src/research/deeplab/sync_bn.py` — the synchronized `batch_norm`.

Conventions of the embedding:

* TensorFlow floats are modelled as exact rationals (`ℚ`); we verify the
  real-number dataflow of the graph, not float32 rounding.
* The square root of `tf.rsqrt`/`tf.nn.batch_normalization` appears only as
  `1/sqrt(var + eps)`; it is abstracted as an arbitrary function
  `rsqrt : ℚ → ℚ` threaded through the definitions, so any theorem proved
  for every `rsqrt` holds in particular for the concrete float kernel.
* Each random draw (`tf.random_uniform`, the offsets of `tf.random_crop`)
  becomes an explicit parameter ranging over the values the op can draw.
* Per-channel images are modelled two ways matching the two files:
  pixel-level nested lists for the channel-split ops, and a
  shape-plus-indexing `Tensor3` record for the spatial crop/pad ops.
-/

/-- A rank-3 tensor `[height, width, channels]`: its shape and the value at
each index triple (indices outside the shape are irrelevant to every
theorem below, which only ever reads in-shape positions). -/
structure Tensor3 where
  height : ℕ
  width : ℕ
  channels : ℕ
  data : ℕ → ℕ → ℕ → ℚ

/-! ## preprocessing.py : mean_image_addition / mean_image_subtraction

`tf.split(axis=2, ...)` followed by per-channel `+= means[i]` / `-= means[i]`
and `tf.concat(axis=2, ...)` acts pixel-wise: channel `i` of each pixel gets
`means[i]` added (resp. subtracted).  A pixel is a `List ℚ` of its channel
values; an image is a `List (List (List ℚ))` of rows of pixels.  The
`ValueError` branch (`len(means) != num_channels`) is reflected by the
rectangularity hypothesis of the theorems: TF checks it against the static
channel dimension shared by every pixel. -/

def mean_image_addition (image : List (List (List ℚ))) (means : List ℚ) :
    List (List (List ℚ)) :=
  image.map (fun row => row.map (fun px => List.zipWith (fun a m => a + m) px means))

def mean_image_subtraction (image : List (List (List ℚ))) (means : List ℚ) :
    List (List (List ℚ)) :=
  image.map (fun row => row.map (fun px => List.zipWith (fun a m => a - m) px means))

lemma zipWith_add_sub (px means : List ℚ) (h : px.length = means.length) :
    List.zipWith (fun a m => a - m) (List.zipWith (fun a m => a + m) px means) means = px := by
  induction px generalizing means with
  | nil => cases means with
    | nil => rfl
    | cons m ms => simp at h
  | cons a as ih =>
    cases means with
    | nil => simp at h
    | cons m ms =>
      simp only [List.zipWith_cons_cons, add_sub_cancel_right, List.cons.injEq, true_and]
      exact ih ms (by simpa using h)

lemma zipWith_sub_add (px means : List ℚ) (h : px.length = means.length) :
    List.zipWith (fun a m => a + m) (List.zipWith (fun a m => a - m) px means) means = px := by
  induction px generalizing means with
  | nil => cases means with
    | nil => rfl
    | cons m ms => simp at h
  | cons a as ih =>
    cases means with
    | nil => simp at h
    | cons m ms =>
      simp only [List.zipWith_cons_cons, sub_add_cancel, List.cons.injEq, true_and]
      exact ih ms (by simpa using h)

lemma list_map_self {α : Type} (l : List α) (f : α → α) (h : ∀ x ∈ l, f x = x) :
    l.map f = l := by
  induction l with
  | nil => rfl
  | cons a as ih =>
    simp only [List.map_cons, List.cons.injEq]
    exact ⟨h a (by simp), ih (fun x hx => h x (by simp [hx]))⟩

/-- C2: For every rank-3 image and a means vector matching the channel
count, `mean_image_subtraction` and `mean_image_addition` are mutual
inverses, elementwise in both composition orders. -/
theorem mean_addition_subtraction_inverse
    (image : List (List (List ℚ))) (means : List ℚ)
    (hch : ∀ row ∈ image, ∀ px ∈ row, px.length = means.length) :
    mean_image_subtraction (mean_image_addition image means) means = image ∧
    mean_image_addition (mean_image_subtraction image means) means = image := by
  constructor
  · unfold mean_image_addition mean_image_subtraction
    rw [List.map_map]
    apply list_map_self
    intro row hrow
    simp only [Function.comp_apply, List.map_map]
    apply list_map_self
    intro px hpx
    exact zipWith_add_sub px means (hch row hrow px hpx)
  · unfold mean_image_addition mean_image_subtraction
    rw [List.map_map]
    apply list_map_self
    intro row hrow
    simp only [Function.comp_apply, List.map_map]
    apply list_map_self
    intro px hpx
    exact zipWith_sub_add px means (hch row hrow px hpx)

/-- Witness for C2 on a concrete 1×2 RGB image. -/
theorem mean_addition_subtraction_inverse_witness :
    (∀ row ∈ [[[(1:ℚ), 2, 3], [4, 5, 6]]], ∀ px ∈ row, px.length = [(10:ℚ), 20, 30].length) ∧
    (mean_image_subtraction (mean_image_addition [[[(1:ℚ), 2, 3], [4, 5, 6]]] [10, 20, 30]) [10, 20, 30]
        = [[[(1:ℚ), 2, 3], [4, 5, 6]]] ∧
      mean_image_addition (mean_image_subtraction [[[(1:ℚ), 2, 3], [4, 5, 6]]] [10, 20, 30]) [10, 20, 30]
        = [[[(1:ℚ), 2, 3], [4, 5, 6]]]) :=
  ⟨by decide, mean_addition_subtraction_inverse [[[(1:ℚ), 2, 3], [4, 5, 6]]] [10, 20, 30] (by decide)⟩

/-! ## preprocessing.py : random_crop_or_pad_image_and_label

The pipeline is: subtract `ignore_label` from the label (so that the zero
fill of padding stands for the ignore class), concatenate image and label
along the channel axis, `tf.image.pad_to_bounding_box` with offsets `(0,0)`
up to `(max(crop_height, image_height), max(crop_width, image_width))`,
`tf.random_crop` to `[crop_height, crop_width, 4]`, split the channels back
at index 3 and add `ignore_label` to the label slice.  `tf.random_crop`
fails unless the requested size is at most the value shape in every
dimension, and otherwise draws each offset uniformly from
`[0, shape - size]` — the offsets `(oh, ow, oc)` are explicit parameters
here.  `tf.to_float`/`tf.to_int32` on the label are exact on the
integer-valued labels modelled by `ℚ` and are dropped. -/

/-- `tf.concat(axis=2)`. TF requires both tensors to share the spatial
dimensions; the result carries the first argument's. -/
def concatChannels (a b : Tensor3) : Tensor3 :=
  ⟨a.height, a.width, a.channels + b.channels,
    fun i j k => if k < a.channels then a.data i j k else b.data i j (k - a.channels)⟩

/-- `tf.image.pad_to_bounding_box(t, 0, 0, targetH, targetW)`: zero-fill
outside the original area.  TF additionally checks `target ≥ current`; the
one call site guarantees it via `tf.maximum`. -/
def pad_to_bounding_box (t : Tensor3) (targetH targetW : ℕ) : Tensor3 :=
  ⟨targetH, targetW, t.channels,
    fun i j k => if i < t.height ∧ j < t.width then t.data i j k else 0⟩

/-- `tf.random_crop(t, [ch, cw, cc])` at drawn offsets `(oh, ow, oc)`:
errors (`none`) unless the size fits inside the value shape in every
dimension, including channels. -/
def random_crop (t : Tensor3) (ch cw cc oh ow oc : ℕ) : Option Tensor3 :=
  if ch ≤ t.height ∧ cw ≤ t.width ∧ cc ≤ t.channels then
    some ⟨ch, cw, cc, fun i j k => t.data (oh + i) (ow + j) (oc + k)⟩
  else none

def random_crop_or_pad_image_and_label (image label : Tensor3)
    (crop_height crop_width : ℕ) (ignore_label : ℚ) (oh ow oc : ℕ) :
    Option (Tensor3 × Tensor3) :=
  let label1 : Tensor3 :=
    ⟨label.height, label.width, label.channels,
      fun i j k => label.data i j k - ignore_label⟩
  let image_and_label := concatChannels image label1
  let image_and_label_pad := pad_to_bounding_box image_and_label
    (max crop_height image.height) (max crop_width image.width)
  match random_crop image_and_label_pad crop_height crop_width 4 oh ow oc with
  | none => none
  | some c =>
      let image_crop : Tensor3 := ⟨c.height, c.width, 3, c.data⟩
      let label_crop : Tensor3 :=
        ⟨c.height, c.width, c.channels - 3,
          fun i j k => c.data i j (3 + k) + ignore_label⟩
      some (image_crop, label_crop)

/-- C3: for a 3-channel image and 1-channel label of any spatial size and
positive crop dimensions, the result exists for every in-range crop offset
and has image shape `[crop_height, crop_width, 3]` and label shape
`[crop_height, crop_width, 1]`. -/
theorem random_crop_or_pad_shapes (image label : Tensor3)
    (crop_height crop_width : ℕ) (ignore_label : ℚ) (oh ow oc : ℕ)
    (hic : image.channels = 3) (hlc : label.channels = 1)
    (hch : 0 < crop_height) (hcw : 0 < crop_width)
    (hoh : oh ≤ max crop_height image.height - crop_height)
    (how : ow ≤ max crop_width image.width - crop_width)
    (hoc : oc = 0) :
    (random_crop_or_pad_image_and_label image label crop_height crop_width
        ignore_label oh ow oc).map
      (fun p => (p.1.height, p.1.width, p.1.channels,
                 p.2.height, p.2.width, p.2.channels)) =
    some (crop_height, crop_width, 3, crop_height, crop_width, 1) := by
  unfold random_crop_or_pad_image_and_label random_crop
  have hcond : crop_height ≤ (pad_to_bounding_box (concatChannels image
        ⟨label.height, label.width, label.channels,
          fun i j k => label.data i j k - ignore_label⟩)
        (max crop_height image.height) (max crop_width image.width)).height ∧
      crop_width ≤ (pad_to_bounding_box (concatChannels image
        ⟨label.height, label.width, label.channels,
          fun i j k => label.data i j k - ignore_label⟩)
        (max crop_height image.height) (max crop_width image.width)).width ∧
      4 ≤ (pad_to_bounding_box (concatChannels image
        ⟨label.height, label.width, label.channels,
          fun i j k => label.data i j k - ignore_label⟩)
        (max crop_height image.height) (max crop_width image.width)).channels := by
    refine ⟨le_max_left _ _, le_max_left _ _, ?_⟩
    simp [pad_to_bounding_box, concatChannels, hic, hlc]
  simp only [hcond, if_pos, Option.map_some]
  simp [pad_to_bounding_box, concatChannels, hic, hlc]

/-- Witness for C3 on a concrete 2×2 image/label pair cropped to 3×3. -/
theorem random_crop_or_pad_shapes_witness :
    (random_crop_or_pad_image_and_label ⟨2, 2, 3, fun _ _ _ => 7⟩
        ⟨2, 2, 1, fun _ _ _ => 1⟩ 3 3 255 0 0 0).map
      (fun p => (p.1.height, p.1.width, p.1.channels,
                 p.2.height, p.2.width, p.2.channels)) =
    some (3, 3, 3, 3, 3, 1) :=
  random_crop_or_pad_shapes ⟨2, 2, 3, fun _ _ _ => 7⟩ ⟨2, 2, 1, fun _ _ _ => 1⟩
    3 3 255 0 0 0 rfl rfl (by decide) (by decide) (by decide) (by decide) rfl

/-- C4: in `random_crop_or_pad_image_and_label`, an output label pixel whose
crop-window position falls inside the original image area reproduces the
input label exactly (subtract-`ignore_label`-then-add round trip), and one
that came from the zero padding equals `ignore_label`. -/
theorem random_crop_or_pad_label_values (image label : Tensor3)
    (crop_height crop_width : ℕ) (ignore_label : ℚ) (oh ow : ℕ)
    (hic : image.channels = 3) (hlc : label.channels = 1)
    (hlh : label.height = image.height) (hlw : label.width = image.width)
    (i j : ℕ) (hi : i < crop_height) (hj : j < crop_width) :
    ∀ ic lc, random_crop_or_pad_image_and_label image label crop_height
        crop_width ignore_label oh ow 0 = some (ic, lc) →
      (oh + i < image.height ∧ ow + j < image.width →
        lc.data i j 0 = label.data (oh + i) (ow + j) 0) ∧
      (¬(oh + i < image.height ∧ ow + j < image.width) →
        lc.data i j 0 = ignore_label) := by
  intro ic lc hres
  unfold random_crop_or_pad_image_and_label random_crop at hres
  by_cases hcond : crop_height ≤ (pad_to_bounding_box (concatChannels image
        ⟨label.height, label.width, label.channels,
          fun i j k => label.data i j k - ignore_label⟩)
        (max crop_height image.height) (max crop_width image.width)).height ∧
      crop_width ≤ (pad_to_bounding_box (concatChannels image
        ⟨label.height, label.width, label.channels,
          fun i j k => label.data i j k - ignore_label⟩)
        (max crop_height image.height) (max crop_width image.width)).width ∧
      4 ≤ (pad_to_bounding_box (concatChannels image
        ⟨label.height, label.width, label.channels,
          fun i j k => label.data i j k - ignore_label⟩)
        (max crop_height image.height) (max crop_width image.width)).channels
  · simp only [hcond, if_pos] at hres
    have hlcdata := congrArg (fun p => p.2.data i j 0) (Option.some.inj hres)
    simp only at hlcdata
    rw [← hlcdata]
    simp only [pad_to_bounding_box, concatChannels, hic, hlh, hlw]
    constructor
    · intro hin
      simp [hin.1, hin.2, sub_add_cancel]
    · intro hout
      rw [if_neg]
      · ring
      · simpa using hout
  · simp only [hcond, if_neg, not_false_iff, reduceCtorEq] at hres

/-- Witness for C4: a 1×1 image with label value 7 cropped to 2×2; the
in-image pixel keeps label 7, a padded pixel reads `ignore_label = 255`. -/
theorem random_crop_or_pad_label_values_witness :
    (random_crop_or_pad_image_and_label ⟨1, 1, 3, fun _ _ _ => 0⟩
        ⟨1, 1, 1, fun _ _ _ => 7⟩ 2 2 255 0 0 0).map
      (fun p => (p.2.data 0 0 0, p.2.data 1 1 0)) = some (7, 255) := by
  rcases hsome : random_crop_or_pad_image_and_label ⟨1, 1, 3, fun _ _ _ => 0⟩
      ⟨1, 1, 1, fun _ _ _ => 7⟩ 2 2 255 0 0 0 with _ | ⟨ic, lc⟩
  · have hs : (random_crop_or_pad_image_and_label ⟨1, 1, 3, fun _ _ _ => 0⟩
        ⟨1, 1, 1, fun _ _ _ => 7⟩ 2 2 255 0 0 0).isSome = true := rfl
    rw [hsome] at hs
    simp at hs
  · have h := random_crop_or_pad_label_values ⟨1, 1, 3, fun _ _ _ => 0⟩
      ⟨1, 1, 1, fun _ _ _ => 7⟩ 2 2 255 0 0 rfl rfl rfl rfl 0 0
      (by decide) (by decide) ic lc hsome
    have h2 := random_crop_or_pad_label_values ⟨1, 1, 3, fun _ _ _ => 0⟩
      ⟨1, 1, 1, fun _ _ _ => 7⟩ 2 2 255 0 0 rfl rfl rfl rfl 1 1
      (by decide) (by decide) ic lc hsome
    have e1 : lc.data 0 0 0 = 7 := h.1 (by constructor <;> decide)
    have e2 : lc.data 1 1 0 = 255 := h2.2 (by decide)
    simp [e1, e2]

/-- C10 counterexample: for an image with 4 channels (≠ 3) and a 1-channel
label, the operation does NOT fail: `tf.random_crop` only requires the
channel count of the concatenation to be at least 4, so it succeeds. -/
theorem random_crop_channel_guard_counterexample :
    (random_crop_or_pad_image_and_label ⟨1, 1, 4, fun _ _ _ => 0⟩
        ⟨1, 1, 1, fun _ _ _ => 0⟩ 1 1 255 0 0 0).isSome = true := by
  rfl

/-- C10 amended: with a 1-channel label, the operation succeeds exactly when
the image has at least 3 channels (so that the concatenation has at least
the 4 channels `tf.random_crop` requests); for fewer it fails, while for
more than 3 it still returns a cropped pair (whose channel window is drawn
at a random channel offset rather than being the image/label split). -/
theorem random_crop_channel_guard (image label : Tensor3)
    (crop_height crop_width : ℕ) (ignore_label : ℚ) (oh ow oc : ℕ)
    (hlc : label.channels = 1) :
    (random_crop_or_pad_image_and_label image label crop_height crop_width
        ignore_label oh ow oc).isSome = true ↔ 3 ≤ image.channels := by
  unfold random_crop_or_pad_image_and_label random_crop
  by_cases hcond : crop_height ≤ (pad_to_bounding_box (concatChannels image
        ⟨label.height, label.width, label.channels,
          fun i j k => label.data i j k - ignore_label⟩)
        (max crop_height image.height) (max crop_width image.width)).height ∧
      crop_width ≤ (pad_to_bounding_box (concatChannels image
        ⟨label.height, label.width, label.channels,
          fun i j k => label.data i j k - ignore_label⟩)
        (max crop_height image.height) (max crop_width image.width)).width ∧
      4 ≤ (pad_to_bounding_box (concatChannels image
        ⟨label.height, label.width, label.channels,
          fun i j k => label.data i j k - ignore_label⟩)
        (max crop_height image.height) (max crop_width image.width)).channels
  · simp only [hcond, and_self, if_true, Option.isSome_some, true_iff]
    have h4 : 4 ≤ image.channels + label.channels := hcond.2.2
    omega
  · simp only [hcond, if_neg, not_false_iff]
    constructor
    · intro hh
      exact absurd hh (by decide)
    · intro h3
      exfalso
      apply hcond
      have h4 : 4 ≤ image.channels + label.channels := by omega
      exact ⟨le_max_left _ _, le_max_left _ _, h4⟩

/-- Witness for the amended C10 at a 2-channel image: the guard refuses it. -/
theorem random_crop_channel_guard_witness :
    ((random_crop_or_pad_image_and_label ⟨1, 1, 2, fun _ _ _ => 0⟩
        ⟨1, 1, 1, fun _ _ _ => 0⟩ 1 1 255 0 0 0).isSome = true ↔
      3 ≤ (Tensor3.mk 1 1 2 (fun _ _ _ => 0)).channels) :=
  random_crop_channel_guard ⟨1, 1, 2, fun _ _ _ => 0⟩ ⟨1, 1, 1, fun _ _ _ => 0⟩
    1 1 255 0 0 0 rfl

/-! ## preprocessing.py : random_flip_left_right_image_and_label

One draw `uniform_random = tf.random_uniform([], 0, 1.0)` (the explicit
parameter `u` here), one condition `mirror_cond = u < 0.5`, and both
`tf.cond`s branch on that same condition; `tf.reverse(·, [1])` mirrors
axis 1, the width. -/

/-- `tf.reverse(t, [1])`: mirror along the width axis. -/
def reverseWidth (t : Tensor3) : Tensor3 :=
  ⟨t.height, t.width, t.channels, fun i j k => t.data i (t.width - 1 - j) k⟩

def random_flip_left_right_image_and_label (u : ℚ) (image label : Tensor3) :
    Tensor3 × Tensor3 :=
  (if u < 1/2 then reverseWidth image else image,
   if u < 1/2 then reverseWidth label else label)

/-- C8: the flip decision is a single threshold test on the one random draw,
and it is coupled: for every draw either both image and label are reversed
along the width axis (draw below 0.5) or both are returned unchanged —
never one without the other. -/
theorem random_flip_coupled (u : ℚ) (image label : Tensor3) :
    (u < 1/2 ∧ random_flip_left_right_image_and_label u image label =
        (reverseWidth image, reverseWidth label)) ∨
    (¬ u < 1/2 ∧ random_flip_left_right_image_and_label u image label =
        (image, label)) := by
  by_cases h : u < 1/2
  · refine Or.inl ⟨h, ?_⟩
    unfold random_flip_left_right_image_and_label
    rw [if_pos h, if_pos h]
  · refine Or.inr ⟨h, ?_⟩
    unfold random_flip_left_right_image_and_label
    rw [if_neg h, if_neg h]

/-! ## preprocessing.py : random_rescale_image_and_label

The three `raise ValueError` guards run in order (`min_scale <= 0`,
`max_scale <= 0`, `min_scale >= max_scale`); then one scale is drawn
uniformly from `[min_scale, max_scale)` (explicit parameter `scale`) and
`new_height`/`new_width` are `tf.to_int32(dimension * scale)` —
truncation toward zero, which on these nonnegative products is the floor.
`tf.image.resize_images` then returns tensors of spatial shape exactly
`[new_height, new_width]`; the interpolated pixel values (bilinear for the
image, nearest neighbor for the label) are float kernels outside the scope
of the claims and the model returns the new spatial shape. -/

def random_rescale_image_and_label (image_height image_width : ℕ)
    (min_scale max_scale scale : ℚ) : Except String (ℕ × ℕ) :=
  if min_scale ≤ 0 then Except.error "min_scale must be greater than 0."
  else if max_scale ≤ 0 then Except.error "max_scale must be greater than 0."
  else if max_scale ≤ min_scale then
    Except.error "max_scale must be greater than min_scale."
  else Except.ok ((Int.floor ((image_height : ℚ) * scale)).toNat,
                  (Int.floor ((image_width : ℚ) * scale)).toNat)

lemma toNat_floor_cast (x : ℚ) (hx : 0 ≤ x) :
    ((⌊x⌋.toNat : ℕ) : ℚ) = (⌊x⌋ : ℚ) := by
  have h0 : (0 : ℤ) ≤ ⌊x⌋ := Int.floor_nonneg.mpr hx
  exact_mod_cast Int.toNat_of_nonneg h0

/-- C9: `random_rescale_image_and_label` fails with an invalid-argument
error exactly when `0 < min_scale < max_scale` is violated; on every valid
range, with the one uniform draw `scale ∈ [min_scale, max_scale)`, it
returns new dimensions equal to the truncation of `original * scale`, so
the output-to-input ratio lies within `[min_scale, max_scale)` up to
integer truncation. -/
theorem random_rescale_spec (h w : ℕ) (min_scale max_scale scale : ℚ)
    (hs1 : min_scale ≤ scale) (hs2 : scale < max_scale) :
    (¬ (0 < min_scale ∧ min_scale < max_scale) →
      ∃ msg, random_rescale_image_and_label h w min_scale max_scale scale =
        Except.error msg) ∧
    (0 < min_scale ∧ min_scale < max_scale →
      ∃ nh nw, random_rescale_image_and_label h w min_scale max_scale scale =
          Except.ok (nh, nw) ∧
        (nh : ℚ) ≤ (h : ℚ) * scale ∧ (h : ℚ) * scale < (nh : ℚ) + 1 ∧
        (nw : ℚ) ≤ (w : ℚ) * scale ∧ (w : ℚ) * scale < (nw : ℚ) + 1 ∧
        min_scale ≤ scale ∧ scale < max_scale) := by
  constructor
  · intro hbad
    unfold random_rescale_image_and_label
    by_cases h1 : min_scale ≤ 0
    · exact ⟨_, by rw [if_pos h1]⟩
    · by_cases h2 : max_scale ≤ 0
      · exact ⟨_, by rw [if_neg h1, if_pos h2]⟩
      · by_cases h3 : max_scale ≤ min_scale
        · exact ⟨_, by rw [if_neg h1, if_neg h2, if_pos h3]⟩
        · exact absurd ⟨lt_of_not_le h1, lt_of_not_le h3⟩ hbad
  · intro hok
    have h1 : ¬ min_scale ≤ 0 := not_le.mpr hok.1
    have h2 : ¬ max_scale ≤ 0 := not_le.mpr (lt_trans hok.1 hok.2)
    have h3 : ¬ max_scale ≤ min_scale := not_le.mpr hok.2
    have hspos : 0 < scale := lt_of_lt_of_le hok.1 hs1
    have hh : (0 : ℚ) ≤ (h : ℚ) * scale :=
      mul_nonneg (Nat.cast_nonneg h) (le_of_lt hspos)
    have hwp : (0 : ℚ) ≤ (w : ℚ) * scale :=
      mul_nonneg (Nat.cast_nonneg w) (le_of_lt hspos)
    refine ⟨(Int.floor ((h : ℚ) * scale)).toNat, (Int.floor ((w : ℚ) * scale)).toNat,
      ?_, ?_, ?_, ?_, ?_, hs1, hs2⟩
    · unfold random_rescale_image_and_label
      rw [if_neg h1, if_neg h2, if_neg h3]
    · rw [toNat_floor_cast _ hh]
      exact Int.floor_le ((h : ℚ) * scale)
    · rw [toNat_floor_cast _ hh]
      exact Int.lt_floor_add_one ((h : ℚ) * scale)
    · rw [toNat_floor_cast _ hwp]
      exact Int.floor_le ((w : ℚ) * scale)
    · rw [toNat_floor_cast _ hwp]
      exact Int.lt_floor_add_one ((w : ℚ) * scale)

/-- Witness for C9: a 5×4 input with range `[1/2, 2)` and draw 3/2. -/
theorem random_rescale_spec_witness :
    ((1 : ℚ)/2 ≤ 3/2 ∧ (3 : ℚ)/2 < 2) ∧
    ((¬ ((0 : ℚ) < 1/2 ∧ (1 : ℚ)/2 < 2) →
      ∃ msg, random_rescale_image_and_label 5 4 (1/2) 2 (3/2) =
        Except.error msg) ∧
    ((0 : ℚ) < 1/2 ∧ (1 : ℚ)/2 < 2 →
      ∃ nh nw, random_rescale_image_and_label 5 4 (1/2) 2 (3/2) =
          Except.ok (nh, nw) ∧
        (nh : ℚ) ≤ (5 : ℚ) * (3/2) ∧ (5 : ℚ) * (3/2) < (nh : ℚ) + 1 ∧
        (nw : ℚ) ≤ (4 : ℚ) * (3/2) ∧ (4 : ℚ) * (3/2) < (nw : ℚ) + 1 ∧
        (1 : ℚ)/2 ≤ 3/2 ∧ (3 : ℚ)/2 < 2)) :=
  ⟨⟨by norm_num, by norm_num⟩,
    random_rescale_spec 5 4 (1/2) 2 (3/2) (by norm_num) (by norm_num)⟩

/-! ## research/deeplab/sync_bn.py : batch_norm

Statistics are reduced over axes `[0, 1, 2]`, leaving one scalar per
channel; channels are independent, so the model tracks one channel:
a device's batch reduces to the list of its values for that channel.

* `devInputs : List (List ℚ)` holds every participating device's values;
  its length is `num_dev` (each of the `num_dev` graph replicas
  contributes one summand to `gen_nccl_ops.nccl_all_reduce(sum)`), and the
  replica executing the layer reads its own batch `devInputs.getD devId []`.
* `tf.nn.moments(inputs, [0,1,2])` is `moments` below: mean and mean of
  squared deviations.
* The multi-device path is `syncMeanVar`: per-device mean and mean of
  squares, all-reduce-summed, times `1.0 / num_dev`, with
  `var = batch_mean_square - square(batch_mean)`.
* `tf.nn.batch_normalization(x, mean, var, beta, gamma, eps)` computes
  `x * inv + (beta - mean * inv)` with `inv = rsqrt(var + eps) * gamma`;
  in exact arithmetic that is `(x - mean) * rsqrt(var + eps) * gamma + beta`,
  with the reciprocal square root abstracted as `rsqrt`.
* The moving-statistics update is guarded by `int(outputs.device[-1]) == 0`:
  the LAST CHARACTER of the device string (e.g. `/device:GPU:3`), i.e. the
  last decimal digit of the device ordinal, modelled as `devId % 10 = 0`.
* The Python function accepts a `scale` flag but never reads it: `gamma`
  is passed to both `tf.nn.batch_normalization` and
  `tf.nn.fused_batch_norm` unconditionally, so `scale` is a parameter of
  the model that the body ignores, exactly as in the source.
* `updates_collections` handling only decides where the two assign ops are
  recorded; either way the updated values are as modelled.  `activation_fn`
  is `None` in the claims' scope.
-/

def listMean (xs : List ℚ) : ℚ := xs.sum / (xs.length : ℚ)

/-- `tf.nn.moments(inputs, [0, 1, 2])` for one channel. -/
def moments (xs : List ℚ) : ℚ × ℚ :=
  (listMean xs, listMean (xs.map (fun x => (x - listMean xs) ^ 2)))

/-- `gen_nccl_ops.nccl_all_reduce(input, reduction='sum', num_devices=n)`:
every participant receives the sum of all contributions. -/
def nccl_all_reduce_sum (contributions : List ℚ) : ℚ := contributions.sum

/-- The multi-device statistics path of `batch_norm`. -/
def syncMeanVar (devInputs : List (List ℚ)) : ℚ × ℚ :=
  let num_dev := devInputs.length
  let batch_mean :=
    nccl_all_reduce_sum (devInputs.map listMean) * (1 / (num_dev : ℚ))
  let batch_mean_square :=
    nccl_all_reduce_sum (devInputs.map (fun xs => listMean (xs.map (fun x => x ^ 2)))) *
      (1 / (num_dev : ℚ))
  (batch_mean, batch_mean_square - batch_mean ^ 2)

/-- `tf.nn.batch_normalization` (equal in exact arithmetic to the
`x * inv + (beta - mean * inv)` form TF evaluates). -/
def batch_normalization (rsqrt : ℚ → ℚ) (x mean var beta gamma eps : ℚ) : ℚ :=
  (x - mean) * rsqrt (var + eps) * gamma + beta

/-- The two stored non-trainable variables of the layer. -/
structure BNState where
  moving_mean : ℚ
  moving_var : ℚ
deriving DecidableEq

/-- The batch statistics chosen by the training branch: the direct
`tf.nn.moments` path when `num_dev == 1`, the all-reduce path otherwise. -/
def bnBatchStats (devInputs : List (List ℚ)) (devId : ℕ) : ℚ × ℚ :=
  if devInputs.length = 1 then moments (devInputs.getD devId []) else syncMeanVar devInputs

/-- `batch_norm` of sync_bn.py for one channel on replica `devId`: returns
the layer output and the (possibly updated) moving statistics. -/
def batch_norm (rsqrt : ℚ → ℚ) (is_training trainable : Bool) (devId : ℕ)
    (decay eps gamma beta : ℚ) (scale : Bool) (devInputs : List (List ℚ))
    (st : BNState) : List ℚ × BNState :=
  let inputs := devInputs.getD devId []
  if is_training && trainable then
    let mv := bnBatchStats devInputs devId
    let outputs := inputs.map (fun x => batch_normalization rsqrt x mv.1 mv.2 beta gamma eps)
    if devId % 10 = 0 then
      (outputs, ⟨st.moving_mean * decay + mv.1 * (1 - decay),
                 st.moving_var * decay + mv.2 * (1 - decay)⟩)
    else
      (outputs, st)
  else
    (inputs.map (fun x =>
      batch_normalization rsqrt x st.moving_mean st.moving_var beta gamma eps), st)

lemma sum_sq_dev (xs : List ℚ) (c : ℚ) :
    (xs.map (fun x => (x - c) ^ 2)).sum =
      (xs.map (fun x => x ^ 2)).sum - 2 * c * xs.sum + (xs.length : ℚ) * c ^ 2 := by
  induction xs with
  | nil => simp
  | cons a as ih =>
    simp only [List.map_cons, List.sum_cons, List.length_cons, ih]
    push_cast
    ring

lemma listMean_sq_dev (xs : List ℚ) (hne : xs ≠ []) :
    listMean (xs.map (fun x => (x - listMean xs) ^ 2)) =
      listMean (xs.map (fun x => x ^ 2)) - (listMean xs) ^ 2 := by
  have hn : (xs.length : ℚ) ≠ 0 := by
    exact_mod_cast Nat.pos_iff_ne_zero.mp (List.length_pos.mpr hne)
  unfold listMean
  rw [List.length_map, List.length_map, sum_sq_dev]
  field_simp
  ring

/-- C1: specialized to `num_dev == 1` — where the all-reduce sum of a single
contribution is that contribution — the synchronized statistics path yields
exactly the `tf.nn.moments` statistics of the single-device path, and hence
`tf.nn.batch_normalization` produces numerically identical output in the
one forward pass (no moving-average update involved in either expression). -/
theorem sync_bn_single_device_equiv (xs : List ℚ) (hne : xs ≠ []) :
    syncMeanVar [xs] = moments xs ∧
    ∀ rsqrt : ℚ → ℚ, ∀ beta gamma eps x : ℚ,
      batch_normalization rsqrt x (syncMeanVar [xs]).1 (syncMeanVar [xs]).2 beta gamma eps =
      batch_normalization rsqrt x (moments xs).1 (moments xs).2 beta gamma eps := by
  have hmain : syncMeanVar [xs] = moments xs := by
    unfold syncMeanVar moments nccl_all_reduce_sum
    simp only [List.map_cons, List.map_nil, List.sum_cons, List.sum_nil, add_zero,
      List.length_cons, List.length_nil, Nat.cast_one, one_div, inv_one, mul_one, zero_add]
    rw [listMean_sq_dev xs hne]
  exact ⟨hmain, fun rsqrt beta gamma eps x => by rw [hmain]⟩

/-- Witness for C1 on the batch `[1, 3]`. -/
theorem sync_bn_single_device_equiv_witness :
    ([(1 : ℚ), 3] ≠ [] ∧ syncMeanVar [[(1 : ℚ), 3]] = moments [(1 : ℚ), 3]) :=
  ⟨by decide, (sync_bn_single_device_equiv [(1 : ℚ), 3] (by decide)).1⟩

/-- C5 counterexample: the guard is `int(outputs.device[-1]) == 0`, the last
decimal digit of the device ordinal — so on device 10 (not device 0) of an
11-replica run the moving statistics ARE updated, contradicting the claim
that every device other than device 0 leaves them unchanged. -/
theorem sync_bn_update_device_counterexample :
    (10 : ℕ) ≠ 0 ∧
    (batch_norm id true true 10 0 0 1 0 false
        [[1], [1], [1], [1], [1], [1], [1], [1], [1], [1], [1]] ⟨0, 1⟩).2 ≠
      (⟨0, 1⟩ : BNState) := by
  refine ⟨by decide, ?_⟩
  have hval : (batch_norm id true true 10 0 0 1 0 false
      [[1], [1], [1], [1], [1], [1], [1], [1], [1], [1], [1]] ⟨0, 1⟩).2 =
        ⟨1, 0⟩ := by
    norm_num [batch_norm, bnBatchStats, syncMeanVar, nccl_all_reduce_sum,
      listMean, BNState.mk.injEq]
  rw [hval]
  simp only [ne_eq, BNState.mk.injEq, not_and]
  intro h
  norm_num at h

/-- C5 amended: in the training branch the exponential-moving-average update
`running = running*decay + batch*(1-decay)` of both moving statistics is
applied exactly on the devices whose ordinal has last decimal digit 0
(`devId % 10 = 0`; for runs of at most 10 devices that is precisely device
0); on every other device the stored state is returned unchanged, and the
normalized output does not depend on which branch was taken. -/
theorem sync_bn_update_only_last_digit_zero (rsqrt : ℚ → ℚ) (devId : ℕ)
    (decay eps gamma beta : ℚ) (scale : Bool) (devInputs : List (List ℚ))
    (st : BNState) :
    (batch_norm rsqrt true true devId decay eps gamma beta scale devInputs st).2 =
      (if devId % 10 = 0 then
        BNState.mk (st.moving_mean * decay + (bnBatchStats devInputs devId).1 * (1 - decay))
                   (st.moving_var * decay + (bnBatchStats devInputs devId).2 * (1 - decay))
      else st) ∧
    (batch_norm rsqrt true true devId decay eps gamma beta scale devInputs st).1 =
      (devInputs.getD devId []).map (fun x =>
        batch_normalization rsqrt x (bnBatchStats devInputs devId).1
          (bnBatchStats devInputs devId).2 beta gamma eps) := by
  by_cases h : devId % 10 = 0 <;> simp [batch_norm, h]

/-- C6: with `is_training=false` or `trainable=false` the layer is a pure
pointwise function of the input and the stored moving statistics (with
gamma, beta, epsilon): the state is not updated, and two runs that differ
only in `decay` or in the other samples sharing the batch agree at every
position with the same input value. -/
theorem sync_bn_inference_pure (rsqrt : ℚ → ℚ) (is_training trainable : Bool)
    (devId : ℕ) (decay eps gamma beta : ℚ) (scale : Bool)
    (devInputs : List (List ℚ)) (st : BNState)
    (hinf : (is_training && trainable) = false) :
    batch_norm rsqrt is_training trainable devId decay eps gamma beta scale devInputs st =
      ((devInputs.getD devId []).map (fun x =>
        batch_normalization rsqrt x st.moving_mean st.moving_var beta gamma eps), st) ∧
    ∀ decay2 : ℚ, ∀ devInputs2 : List (List ℚ), ∀ i : ℕ,
      (devInputs.getD devId [])[i]? = (devInputs2.getD devId [])[i]? →
      (batch_norm rsqrt is_training trainable devId decay eps gamma beta scale
          devInputs st).1[i]? =
      (batch_norm rsqrt is_training trainable devId decay2 eps gamma beta scale
          devInputs2 st).1[i]? := by
  constructor
  · simp [batch_norm, hinf]
  · intro decay2 devInputs2 i hx
    have e1 : (batch_norm rsqrt is_training trainable devId decay eps gamma beta scale
        devInputs st).1 = (devInputs.getD devId []).map (fun x =>
          batch_normalization rsqrt x st.moving_mean st.moving_var beta gamma eps) := by
      simp [batch_norm, hinf]
    have e2 : (batch_norm rsqrt is_training trainable devId decay2 eps gamma beta scale
        devInputs2 st).1 = (devInputs2.getD devId []).map (fun x =>
          batch_normalization rsqrt x st.moving_mean st.moving_var beta gamma eps) := by
      simp [batch_norm, hinf]
    rw [e1, e2, List.getElem?_map, List.getElem?_map, hx]

/-- Witness for C6: inference on the stored statistics for input `[2]`. -/
theorem sync_bn_inference_pure_witness :
    batch_norm id false true 0 5 0 1 0 false [[(2 : ℚ)]] ⟨1, 3⟩ =
      (([(2 : ℚ)]).map (fun x => batch_normalization id x 1 3 0 1 0), ⟨1, 3⟩) :=
  (sync_bn_inference_pure id false true 0 5 0 1 0 false [[(2 : ℚ)]] ⟨1, 3⟩ rfl).1

/-- C7 counterexample: with the scale option disabled (`scale := false`) and
`gamma = 2` on the batch `[0, 2]` (mean 1, variance 1, `eps = 0`,
`rsqrt = id`), the output is the gamma-scaled `[-2, 2]`, not the unscaled
`[-1, 1]` the claim predicts for disabled scale — `gamma` is applied anyway. -/
theorem sync_bn_scale_ignored_counterexample :
    (batch_norm id true true 0 0 0 2 0 false [[(0 : ℚ), 2]] ⟨0, 1⟩).1 = [-2, 2] ∧
    (batch_norm id true true 0 0 0 2 0 false [[(0 : ℚ), 2]] ⟨0, 1⟩).1 ≠ [-1, 1] := by
  have hval : (batch_norm id true true 0 0 0 2 0 false [[(0 : ℚ), 2]] ⟨0, 1⟩).1 =
      [-2, 2] := by
    norm_num [batch_norm, bnBatchStats, moments, listMean, batch_normalization]
  refine ⟨hval, ?_⟩
  rw [hval]
  intro h
  have := List.head_eq_of_cons_eq h
  norm_num at this

/-- C7 amended: the layer normalizes via
`(x - mean) / sqrt(var + eps) * gamma + beta` in both the training and the
inference branch, but unconditionally: the `scale` option is accepted and
ignored (the output is identical for `scale := true` and `scale := false`,
and `gamma` is always applied). -/
theorem sync_bn_normalization_formula (rsqrt : ℚ → ℚ) (it tr : Bool)
    (devId : ℕ) (decay eps gamma beta : ℚ) (devInputs : List (List ℚ))
    (st : BNState) :
    (batch_norm rsqrt it tr devId decay eps gamma beta true devInputs st =
      batch_norm rsqrt it tr devId decay eps gamma beta false devInputs st) ∧
    ((batch_norm rsqrt true true devId decay eps gamma beta false devInputs st).1 =
      (devInputs.getD devId []).map (fun x =>
        (x - (bnBatchStats devInputs devId).1) *
          rsqrt ((bnBatchStats devInputs devId).2 + eps) * gamma + beta)) ∧
    ((batch_norm rsqrt false tr devId decay eps gamma beta false devInputs st).1 =
      (devInputs.getD devId []).map (fun x =>
        (x - st.moving_mean) * rsqrt (st.moving_var + eps) * gamma + beta)) := by
  refine ⟨rfl, ?_, ?_⟩
  · by_cases h : devId % 10 = 0 <;> simp [batch_norm, batch_normalization, h]
  · simp [batch_norm, batch_normalization]
